import Mathlib

/-!
Verification of `kgexpr/data/__init__.py` (data loading and batch pipeline of
the kgexpr knowledge-graph-embedding package).

The Python module is shallowly embedded: pure functions become Lean functions,
the stateful batch sampler becomes explicit state passing, fallible code
returns `Option`/`Except`.  Integer ids are modelled as `Int` (numpy int64
overflow is irrelevant at the sizes involved; all arithmetic here is far below
2^63, and the module itself never wraps).
-/

namespace Kgexpr

/-- A triple of integer ids, as produced by the external parser
(`kgekit.TripleIndex`).  The query path stores `-1` as an "unknown" sentinel,
hence `Int` fields. -/
structure TripleIndex where
  head : Int
  relation : Int
  tail : Int
deriving Repr, DecidableEq

/-- Python `max(triple_set, key=f)` on a nonempty list returns the first
element with the maximal key and raises `ValueError` on an empty list; every
caller in `TripleSource.__init__` immediately reads the key field of the
result, so we return the maximal key value itself, `none` on the empty list. -/
def pyMaxBy (f : TripleIndex → Int) : List TripleIndex → Option Int
  | [] => none
  | x :: xs => some (xs.foldl (fun acc y => max acc (f y)) (f x))

/-- The fields of `TripleSource` after `__init__` (lines 28-62): the three
triple sets and the derived vocabulary sizes. -/
structure TripleSource where
  train_set : List TripleIndex
  valid_set : List TripleIndex
  test_set : List TripleIndex
  num_entity : Int
  num_relation : Int
deriving Repr, DecidableEq

/-- Lines 44-62 of `TripleSource.__init__`: `max_head` is the max over the
per-set maxima by head, `max_tail` by tail, `num_entity = max(max_head.head,
max_tail.tail) + 1`, `num_relation = (max by relation) + 1`.  Python `max`
raises on an empty set, modelled as `none`. -/
def TripleSource.init (train valid test : List TripleIndex) : Option TripleSource := do
  let mh1 ← pyMaxBy (·.head) train
  let mh2 ← pyMaxBy (·.head) valid
  let mh3 ← pyMaxBy (·.head) test
  let max_head := max (max mh1 mh2) mh3
  let mt1 ← pyMaxBy (·.tail) train
  let mt2 ← pyMaxBy (·.tail) valid
  let mt3 ← pyMaxBy (·.tail) test
  let max_tail := max (max mt1 mt2) mt3
  let mr1 ← pyMaxBy (·.relation) train
  let mr2 ← pyMaxBy (·.relation) valid
  let mr3 ← pyMaxBy (·.relation) test
  let max_rel := max (max mr1 mr2) mr3
  pure { train_set := train, valid_set := valid, test_set := test,
         num_entity := max max_head max_tail + 1,
         num_relation := max_rel + 1 }

/-- All entity ids (head and tail positions) occurring in a list of triples. -/
def entityIds (l : List TripleIndex) : List Int :=
  l.flatMap (fun x => [x.head, x.tail])

/-- All relation ids occurring in a list of triples. -/
def relationIds (l : List TripleIndex) : List Int :=
  l.map (·.relation)

instance : Std.Antisymm ((· : Int) ≤ ·) :=
  ⟨fun h h' => le_antisymm h h'⟩

theorem pyMaxBy_eq_max? (f : TripleIndex → Int) (l : List TripleIndex) :
    pyMaxBy f l = (l.map f).max? := by
  cases l with
  | nil => rfl
  | cons x xs => simp only [pyMaxBy, List.map_cons, List.max?_cons', List.foldl_map]

theorem int_max?_eq_some_iff (l : List Int) (m : Int) :
    l.max? = some m ↔ m ∈ l ∧ ∀ x ∈ l, x ≤ m :=
  List.max?_eq_some_iff (fun a => le_refl a) (fun a b => max_choice a b)
    (fun a b c => @max_le_iff _ _ b c a)

theorem pyMaxBy_spec (f : TripleIndex → Int) (l : List TripleIndex) (m : Int)
    (h : pyMaxBy f l = some m) :
    (∃ t ∈ l, f t = m) ∧ ∀ t ∈ l, f t ≤ m := by
  rw [pyMaxBy_eq_max?, int_max?_eq_some_iff] at h
  obtain ⟨h1, h2⟩ := h
  simp only [List.mem_map] at h1 h2
  exact ⟨h1, fun t ht => h2 (f t) ⟨t, ht, rfl⟩⟩

theorem mem_entityIds (a : Int) (l : List TripleIndex) :
    a ∈ entityIds l ↔ ∃ t ∈ l, t.head = a ∨ t.tail = a := by
  simp [entityIds, List.mem_flatMap, eq_comm]

theorem mem_relationIds (a : Int) (l : List TripleIndex) :
    a ∈ relationIds l ↔ ∃ t ∈ l, t.relation = a := by
  simp [relationIds, List.mem_map, eq_comm]

/-- C1: for every TripleSource loaded from train/valid/test files, `num_entity`
equals 1 plus the maximum entity id (over both head and tail positions) across
the union of the three sets, and `num_relation` equals 1 plus the maximum
relation id across the same union. -/
theorem C1_vocab_sizes (train valid test : List TripleIndex) (s : TripleSource)
    (h : TripleSource.init train valid test = some s) :
    (∃ m, (entityIds (train ++ valid ++ test)).max? = some m ∧ s.num_entity = 1 + m) ∧
    (∃ m, (relationIds (train ++ valid ++ test)).max? = some m ∧ s.num_relation = 1 + m) := by
  simp only [TripleSource.init, bind, Option.bind_eq_some, Option.pure_def,
    Option.some.injEq] at h
  obtain ⟨mh1, h1, mh2, h2, mh3, h3, mt1, h4, mt2, h5, mt3, h6, mr1, h7, mr2, h8, mr3, h9,
    hs⟩ := h
  subst hs
  have Hh1 := pyMaxBy_spec _ _ _ h1
  have Hh2 := pyMaxBy_spec _ _ _ h2
  have Hh3 := pyMaxBy_spec _ _ _ h3
  have Ht1 := pyMaxBy_spec _ _ _ h4
  have Ht2 := pyMaxBy_spec _ _ _ h5
  have Ht3 := pyMaxBy_spec _ _ _ h6
  have Hr1 := pyMaxBy_spec _ _ _ h7
  have Hr2 := pyMaxBy_spec _ _ _ h8
  have Hr3 := pyMaxBy_spec _ _ _ h9
  constructor
  · refine ⟨max (max (max mh1 mh2) mh3) (max (max mt1 mt2) mt3), ?_, Int.add_comm _ _⟩
    rw [int_max?_eq_some_iff]
    constructor
    · rw [mem_entityIds]
      rcases max_choice (max (max mh1 mh2) mh3) (max (max mt1 mt2) mt3) with hc | hc <;>
        rw [hc]
      · rcases max_choice (max mh1 mh2) mh3 with hc2 | hc2 <;> rw [hc2]
        · rcases max_choice mh1 mh2 with hc3 | hc3 <;> rw [hc3]
          · obtain ⟨t, ht, hf⟩ := Hh1.1
            exact ⟨t, by simp [List.mem_append, ht], Or.inl hf⟩
          · obtain ⟨t, ht, hf⟩ := Hh2.1
            exact ⟨t, by simp [List.mem_append, ht], Or.inl hf⟩
        · obtain ⟨t, ht, hf⟩ := Hh3.1
          exact ⟨t, by simp [List.mem_append, ht], Or.inl hf⟩
      · rcases max_choice (max mt1 mt2) mt3 with hc2 | hc2 <;> rw [hc2]
        · rcases max_choice mt1 mt2 with hc3 | hc3 <;> rw [hc3]
          · obtain ⟨t, ht, hf⟩ := Ht1.1
            exact ⟨t, by simp [List.mem_append, ht], Or.inr hf⟩
          · obtain ⟨t, ht, hf⟩ := Ht2.1
            exact ⟨t, by simp [List.mem_append, ht], Or.inr hf⟩
        · obtain ⟨t, ht, hf⟩ := Ht3.1
          exact ⟨t, by simp [List.mem_append, ht], Or.inr hf⟩
    · intro x hx
      rw [mem_entityIds] at hx
      obtain ⟨t, ht, hf⟩ := hx
      simp only [List.mem_append] at ht
      rcases hf with hf | hf <;> rw [← hf] <;> simp only [le_max_iff]
      · rcases ht with (ht | ht) | ht
        · exact Or.inl (Or.inl (Or.inl (Hh1.2 t ht)))
        · exact Or.inl (Or.inl (Or.inr (Hh2.2 t ht)))
        · exact Or.inl (Or.inr (Hh3.2 t ht))
      · rcases ht with (ht | ht) | ht
        · exact Or.inr (Or.inl (Or.inl (Ht1.2 t ht)))
        · exact Or.inr (Or.inl (Or.inr (Ht2.2 t ht)))
        · exact Or.inr (Or.inr (Ht3.2 t ht))
  · refine ⟨max (max mr1 mr2) mr3, ?_, Int.add_comm _ _⟩
    rw [int_max?_eq_some_iff]
    constructor
    · rw [mem_relationIds]
      rcases max_choice (max mr1 mr2) mr3 with hc | hc <;> rw [hc]
      · rcases max_choice mr1 mr2 with hc2 | hc2 <;> rw [hc2]
        · obtain ⟨t, ht, hf⟩ := Hr1.1
          exact ⟨t, by simp [List.mem_append, ht], hf⟩
        · obtain ⟨t, ht, hf⟩ := Hr2.1
          exact ⟨t, by simp [List.mem_append, ht], hf⟩
      · obtain ⟨t, ht, hf⟩ := Hr3.1
        exact ⟨t, by simp [List.mem_append, ht], hf⟩
    · intro x hx
      rw [mem_relationIds] at hx
      obtain ⟨t, ht, hf⟩ := hx
      simp only [List.mem_append] at ht
      rw [← hf]
      simp only [le_max_iff]
      rcases ht with (ht | ht) | ht
      · exact Or.inl (Or.inl (Hr1.2 t ht))
      · exact Or.inl (Or.inr (Hr2.2 t ht))
      · exact Or.inr (Hr3.2 t ht)

/-- The example data of the spec: train `[(0,0,1),(1,1,2)]`, valid and test
containing no larger ids. -/
def exTrain : List TripleIndex := [⟨0, 0, 1⟩, ⟨1, 1, 2⟩]

def exValid : List TripleIndex := [⟨0, 0, 1⟩]

def exTest : List TripleIndex := [⟨0, 0, 1⟩]

def exSource : TripleSource := ⟨exTrain, exValid, exTest, 3, 2⟩

/-- Witness for C1 at the spec's example: the loaded store has
`num_entity = 3` and `num_relation = 2`. -/
theorem C1_vocab_sizes_witness :
    (∃ m, (entityIds (exTrain ++ exValid ++ exTest)).max? = some m ∧
      exSource.num_entity = 1 + m) ∧
    (∃ m, (relationIds (exTrain ++ exValid ++ exTest)).max? = some m ∧
      exSource.num_relation = 1 + m) :=
  C1_vocab_sizes exTrain exValid exTest exSource (by decide)

/-! ### TripleIndexBatchSampler (lines 191-223) -/

/-- State of a `TripleIndexBatchSampler` after `__iter__` (lines 198-202):
`cursor` starts at 0 and `max_item` is the dataset length; `batch_size` is
fixed at construction. -/
structure SamplerState where
  cursor : Nat
  max_item : Nat
  batch_size : Nat
deriving Repr, DecidableEq

/-- `__len__` (line 207): `(len(dataset) + batch_size - 1) // batch_size`. -/
def samplerLen (dataset_length batch_size : Nat) : Nat :=
  (dataset_length + batch_size - 1) / batch_size

/-- `__next__` (lines 209-223).  `StopIteration` is `none`.  The loop
`for i in range(batch_size): batch[i] = cursor + i` is `(range n).map (cursor + ·)`.
Python computes the local `batch_size = max_item - cursor` as a possibly
negative int and raises `StopIteration` when it is `<= 0`; with `Nat`
truncated subtraction that is exactly the `= 0` case. -/
def samplerNext (s : SamplerState) : Option (List Nat × SamplerState) :=
  if s.cursor + s.batch_size < s.max_item then
    some ((List.range s.batch_size).map (s.cursor + ·),
      { s with cursor := s.cursor + s.batch_size })
  else if s.max_item - s.cursor = 0 then
    none
  else
    some ((List.range (s.max_item - s.cursor)).map (s.cursor + ·),
      { s with cursor := s.cursor + (s.max_item - s.cursor) })

/-- Iterating `__next__` until `StopIteration`, with fuel (the iteration in
the Python for-loop protocol); `dataset_length` fuel always suffices. -/
def samplerChunks : Nat → SamplerState → List (List Nat)
  | 0, _ => []
  | fuel + 1, s =>
    match samplerNext s with
    | none => []
    | some (b, s') => b :: samplerChunks fuel s'

/-- A full pass over the sampler: `__iter__` then `__next__` to exhaustion. -/
def samplerRun (dataset_length batch_size : Nat) : List (List Nat) :=
  samplerChunks dataset_length
    { cursor := 0, max_item := dataset_length, batch_size := batch_size }

theorem samplerNext_done (L B : Nat) :
    samplerNext { cursor := L, max_item := L, batch_size := B } = none := by
  unfold samplerNext
  simp

theorem samplerChunks_of_next_none (fuel : Nat) (s : SamplerState)
    (h : samplerNext s = none) : samplerChunks fuel s = [] := by
  cases fuel <;> simp [samplerChunks, h]

theorem samplerNext_step (c L B : Nat) (hlt : c + B < L) :
    samplerNext { cursor := c, max_item := L, batch_size := B }
      = some ((List.range B).map (c + ·),
          { cursor := c + B, max_item := L, batch_size := B }) := by
  simp [samplerNext, hlt]

theorem samplerNext_last (c L B : Nat) (hlt : ¬ c + B < L) (h0 : L - c ≠ 0) :
    samplerNext { cursor := c, max_item := L, batch_size := B }
      = some ((List.range (L - c)).map (c + ·),
          { cursor := c + (L - c), max_item := L, batch_size := B }) := by
  simp [samplerNext, hlt, h0]

theorem samplerChunks_flatten (B : Nat) (hB : 0 < B) (fuel : Nat) :
    ∀ c L : Nat, c ≤ L → L - c ≤ fuel →
      (samplerChunks fuel { cursor := c, max_item := L, batch_size := B }).flatten
        = List.range' c (L - c) := by
  induction fuel with
  | zero =>
    intro c L hc hf
    have h0 : L - c = 0 := Nat.le_zero.mp hf
    simp [samplerChunks, h0]
  | succ fuel ih =>
    intro c L hc hf
    by_cases hlt : c + B < L
    · simp only [samplerChunks, samplerNext_step c L B hlt]
      rw [List.flatten_cons, ih (c + B) L (Nat.le_of_lt hlt) (by omega),
        ← List.range'_eq_map_range, List.range'_append_1]
      congr 1
      omega
    · by_cases h0 : L - c = 0
      · have hnone : samplerNext { cursor := c, max_item := L, batch_size := B } = none := by
          simp [samplerNext, hlt, h0]
        rw [samplerChunks_of_next_none _ _ hnone, h0]
        simp
      · simp only [samplerChunks, samplerNext_last c L B hlt h0]
        have hdone : samplerChunks fuel
            { cursor := c + (L - c), max_item := L, batch_size := B } = [] := by
          apply samplerChunks_of_next_none
          have hcl : c + (L - c) = L := by omega
          rw [hcl]
          exact samplerNext_done L B
        rw [List.flatten_cons, hdone, List.flatten_nil, List.append_nil,
          ← List.range'_eq_map_range]

theorem samplerChunks_length (B : Nat) (hB : 0 < B) (fuel : Nat) :
    ∀ c L : Nat, c ≤ L → L - c ≤ fuel →
      (samplerChunks fuel { cursor := c, max_item := L, batch_size := B }).length
        = (L - c + B - 1) / B := by
  induction fuel with
  | zero =>
    intro c L hc hf
    have h0 : L - c = 0 := Nat.le_zero.mp hf
    rw [h0]
    simp only [samplerChunks, List.length_nil]
    exact (Nat.div_eq_of_lt (by omega)).symm
  | succ fuel ih =>
    intro c L hc hf
    by_cases hlt : c + B < L
    · simp only [samplerChunks, samplerNext_step c L B hlt, List.length_cons]
      rw [ih (c + B) L (Nat.le_of_lt hlt) (by omega)]
      have e1 : L - (c + B) + B - 1 = L - c - 1 := by omega
      have e2 : L - c + B - 1 = (L - c - 1) + B := by omega
      rw [e1, e2, Nat.add_div_right _ hB]
    · by_cases h0 : L - c = 0
      · have hnone : samplerNext { cursor := c, max_item := L, batch_size := B } = none := by
          simp [samplerNext, hlt, h0]
        rw [samplerChunks_of_next_none _ _ hnone, h0]
        simp only [List.length_nil]
        exact (Nat.div_eq_of_lt (by omega)).symm
      · simp only [samplerChunks, samplerNext_last c L B hlt h0, List.length_cons]
        have hdone : samplerChunks fuel
            { cursor := c + (L - c), max_item := L, batch_size := B } = [] := by
          apply samplerChunks_of_next_none
          have hcl : c + (L - c) = L := by omega
          rw [hcl]
          exact samplerNext_done L B
        rw [hdone]
        simp only [List.length_nil]
        have e2 : L - c + B - 1 = (L - c - 1) + B := by omega
        rw [e2, Nat.add_div_right _ hB, Nat.div_eq_of_lt (by omega : L - c - 1 < B)]

theorem samplerChunks_getLast (B : Nat) (hB : 0 < B) (fuel : Nat) :
    ∀ c L : Nat, c ≤ L → 0 < L - c → L - c ≤ fuel →
      ∃ ch,
        (samplerChunks fuel
          { cursor := c, max_item := L, batch_size := B }).getLast? = some ch ∧
        ch.length = if (L - c) % B = 0 then B else (L - c) % B := by
  induction fuel with
  | zero =>
    intro c L hc hpos hf
    omega
  | succ fuel ih =>
    intro c L hc hpos hf
    by_cases hlt : c + B < L
    · simp only [samplerChunks, samplerNext_step c L B hlt]
      obtain ⟨ch, hch, hlen⟩ := ih (c + B) L (by omega) (by omega) (by omega)
      refine ⟨ch, ?_, ?_⟩
      · rcases hrest : samplerChunks fuel
            { cursor := c + B, max_item := L, batch_size := B } with _ | ⟨r, rs⟩
        · rw [hrest] at hch
          simp at hch
        · rw [hrest] at hch
          rw [List.getLast?_cons_cons]
          exact hch
      · rw [hlen]
        have hmod : (L - (c + B)) % B = (L - c) % B := by
          have h1 : L - c = (L - (c + B)) + B := by omega
          rw [h1, Nat.add_mod_right]
        rw [hmod]
    · have h0 : L - c ≠ 0 := by omega
      simp only [samplerChunks, samplerNext_last c L B hlt h0]
      have hdone : samplerChunks fuel
          { cursor := c + (L - c), max_item := L, batch_size := B } = [] := by
        apply samplerChunks_of_next_none
        have hcl : c + (L - c) = L := by omega
        rw [hcl]
        exact samplerNext_done L B
      rw [hdone]
      refine ⟨(List.range (L - c)).map (c + ·), by simp, ?_⟩
      simp only [List.length_map, List.length_range]
      by_cases hEq : L - c = B
      · rw [hEq]
        simp [Nat.mod_self]
      · have hlt2 : L - c < B := by omega
        rw [Nat.mod_eq_of_lt hlt2, if_neg h0]

/-- C2: for dataset length `L > 0` and batch size `B > 0`, the sampler's
chunks concatenate to exactly `[0, L)` in ascending order, the number of
chunks equals `len() = (L + B - 1) / B` which is `ceil(L/B)` (characterised
by `L ≤ B * len < L + B`), the last chunk has length `L mod B` (or `B` when
`B` divides `L`), and `__next__` raises `StopIteration` once the cursor
reaches `L`. -/
theorem C2_batch_sampler (L B : Nat) (hL : 0 < L) (hB : 0 < B) :
    (samplerRun L B).flatten = List.range L ∧
    (samplerRun L B).length = samplerLen L B ∧
    (L ≤ B * samplerLen L B ∧ B * samplerLen L B < L + B) ∧
    (∃ ch, (samplerRun L B).getLast? = some ch ∧
      ch.length = if L % B = 0 then B else L % B) ∧
    samplerNext { cursor := L, max_item := L, batch_size := B } = none := by
  refine ⟨?_, ?_, ?_, ?_, samplerNext_done L B⟩
  · have h := samplerChunks_flatten B hB L 0 L (Nat.zero_le L) (by omega)
    rw [samplerRun, h, Nat.sub_zero, List.range_eq_range']
  · have h := samplerChunks_length B hB L 0 L (Nat.zero_le L) (by omega)
    rw [samplerRun, h, Nat.sub_zero, samplerLen]
  · unfold samplerLen
    have hdm := Nat.div_add_mod (L + B - 1) B
    have hmod := Nat.mod_lt (L + B - 1) hB
    generalize hq : (L + B - 1) / B = q at *
    have hle : B * q ≤ L + B - 1 := by omega
    have hge : L + B - 1 < B * q + B := by omega
    constructor <;> omega
  · have h := samplerChunks_getLast B hB L 0 L (Nat.zero_le L) (by omega) (by omega)
    rw [Nat.sub_zero] at h
    exact h

/-- Witness for C2 at `L = 5`, `B = 2`. -/
theorem C2_batch_sampler_witness :
    (samplerRun 5 2).flatten = List.range 5 ∧
    (samplerRun 5 2).length = samplerLen 5 2 ∧
    (5 ≤ 2 * samplerLen 5 2 ∧ 2 * samplerLen 5 2 < 5 + 2) ∧
    (∃ ch, (samplerRun 5 2).getLast? = some ch ∧
      ch.length = if 5 % 2 = 0 then 2 else 5 % 2) ∧
    samplerNext { cursor := 5, max_item := 5, batch_size := 2 } = none :=
  C2_batch_sampler 5 2 (by decide) (by decide)

/-! ### expand_triple_to_sets (lines 157-185) -/

namespace TripleElement

/-- Modelled from the spec: `kgexpr.data.constants.TripleElement` is code of
this repository that is not under `src/`.  Per the spec (§4.6) the valid
target fields are exactly head, relation and tail; we model the enum members
as the integers 0, 1, 2 inside the full value space `Int`, so that invalid
arguments are representable. -/
def HEAD : Int := 0

/-- Modelled from the spec: the RELATION member of `TripleElement`. -/
def RELATION : Int := 1

/-- Modelled from the spec: the TAIL member of `TripleElement`. -/
def TAIL : Int := 2

/-- Modelled from the spec: `TripleElement.has_value(v)` holds exactly when
`v` is one of the enum members head/relation/tail. -/
def has_value (v : Int) : Prop :=
  v = HEAD ∨ v = RELATION ∨ v = TAIL

instance (v : Int) : Decidable (has_value v) := by
  unfold has_value
  infer_instance

end TripleElement

/-- `np.arange(n, dtype=np.int64)` as a list: `[0, n)`. -/
def npArange (n : Nat) : List Int :=
  (List.range n).map Int.ofNat

/-- The two failure modes of `expand_triple_to_sets`: the entry validation
(`InvalidTargetError` in the spec's taxonomy, lines 162-165) and the declared
impossible final else branch (the "Miracle happened" RuntimeError, lines
180-183). -/
inductive ExpandError
  | invalidTarget
  | miracle
deriving Repr, DecidableEq

/-- `expand_triple_to_sets(triple, num_expands, arange_target)`:
validates the target, then replaces the target field by
`np.arange(num_expands)` and tiles (`np.tile([x], num_expands)`, i.e.
`List.replicate`) the other two fields. -/
def expand_triple_to_sets (triple : Int × Int × Int) (num_expands : Nat)
    (arange_target : Int) : Except ExpandError (List Int × List Int × List Int) :=
  if ¬ TripleElement.has_value arange_target then
    .error .invalidTarget
  else
    let (h, r, t) := triple
    if arange_target = TripleElement.HEAD then
      .ok (npArange num_expands, List.replicate num_expands r, List.replicate num_expands t)
    else if arange_target = TripleElement.RELATION then
      .ok (List.replicate num_expands h, npArange num_expands, List.replicate num_expands t)
    else if arange_target = TripleElement.TAIL then
      .ok (List.replicate num_expands h, List.replicate num_expands r, npArange num_expands)
    else
      .error .miracle

theorem npArange_length (n : Nat) : (npArange n).length = n := by
  simp [npArange]

/-- C4: for every triple, `N ≥ 0` and valid target field,
`expand_triple_to_sets` returns three arrays of length `N`, the target field
equal to `arange(N)` and the two non-target fields constant arrays equal to
the corresponding input field. -/
theorem C4_expand_valid_target (hd rl tl : Int) (N : Nat) (target : Int)
    (hv : TripleElement.has_value target) :
    ∃ h r t, expand_triple_to_sets (hd, rl, tl) N target = .ok (h, r, t) ∧
      h.length = N ∧ r.length = N ∧ t.length = N ∧
      ((target = TripleElement.HEAD ∧ h = npArange N ∧
          r = List.replicate N rl ∧ t = List.replicate N tl) ∨
       (target = TripleElement.RELATION ∧ r = npArange N ∧
          h = List.replicate N hd ∧ t = List.replicate N tl) ∨
       (target = TripleElement.TAIL ∧ t = npArange N ∧
          h = List.replicate N hd ∧ r = List.replicate N rl)) := by
  rcases hv with h0 | h0 | h0 <;> subst h0
  · exact ⟨npArange N, List.replicate N rl, List.replicate N tl,
      by simp [expand_triple_to_sets, TripleElement.has_value],
      npArange_length N, List.length_replicate _ _, List.length_replicate _ _,
      Or.inl ⟨rfl, rfl, rfl, rfl⟩⟩
  · exact ⟨List.replicate N hd, npArange N, List.replicate N tl,
      by simp [expand_triple_to_sets, TripleElement.has_value, TripleElement.RELATION,
        TripleElement.HEAD],
      List.length_replicate _ _, npArange_length N, List.length_replicate _ _,
      Or.inr (Or.inl ⟨rfl, rfl, rfl, rfl⟩)⟩
  · exact ⟨List.replicate N hd, List.replicate N rl, npArange N,
      by simp [expand_triple_to_sets, TripleElement.has_value, TripleElement.TAIL,
        TripleElement.HEAD, TripleElement.RELATION],
      List.length_replicate _ _, List.length_replicate _ _, npArange_length N,
      Or.inr (Or.inr ⟨rfl, rfl, rfl, rfl⟩)⟩

/-- Witness for C4: expanding `(1, 1, 2)` on target = head with `N = 3`
(the spec's example, giving `h=[0,1,2]`, `r=[1,1,1]`, `t=[2,2,2]`). -/
theorem C4_expand_valid_target_witness :
    ∃ h r t, expand_triple_to_sets (1, 1, 2) 3 TripleElement.HEAD = .ok (h, r, t) ∧
      h.length = 3 ∧ r.length = 3 ∧ t.length = 3 ∧
      ((TripleElement.HEAD = TripleElement.HEAD ∧ h = npArange 3 ∧
          r = List.replicate 3 1 ∧ t = List.replicate 3 2) ∨
       (TripleElement.HEAD = TripleElement.RELATION ∧ r = npArange 3 ∧
          h = List.replicate 3 1 ∧ t = List.replicate 3 2) ∨
       (TripleElement.HEAD = TripleElement.TAIL ∧ t = npArange 3 ∧
          h = List.replicate 3 1 ∧ r = List.replicate 3 1)) :=
  C4_expand_valid_target 1 1 2 3 TripleElement.HEAD (Or.inl rfl)

/-- C6: for every input whose `arange_target` is not one of
head/relation/tail, `expand_triple_to_sets` fails with the entry validation
error (`InvalidTargetError` in the spec's taxonomy). -/
theorem C6_invalid_target (triple : Int × Int × Int) (N : Nat) (target : Int)
    (hv : ¬ TripleElement.has_value target) :
    expand_triple_to_sets triple N target = .error .invalidTarget := by
  unfold expand_triple_to_sets
  rw [if_pos (by exact hv)]

/-- Witness for C6 at the invalid target value 5. -/
theorem C6_invalid_target_witness :
    expand_triple_to_sets (0, 0, 0) 2 5 = .error .invalidTarget :=
  C6_invalid_target (0, 0, 0) 2 5 (by decide)

/-- C10: under the precondition that `arange_target` passes the
`TripleElement.has_value` validation, the final else branch (the "Miracle
happened" RuntimeError) is unreachable: every validated target is one of the
HEAD, RELATION or TAIL branches, and the result is never the miracle error. -/
theorem C10_miracle_unreachable (triple : Int × Int × Int) (N : Nat) (target : Int)
    (hv : TripleElement.has_value target) :
    (target = TripleElement.HEAD ∨ target = TripleElement.RELATION ∨
      target = TripleElement.TAIL) ∧
    expand_triple_to_sets triple N target ≠ .error .miracle := by
  refine ⟨hv, ?_⟩
  obtain ⟨hd, rl, tl⟩ := triple
  rcases hv with h0 | h0 | h0 <;> subst h0 <;>
    simp [expand_triple_to_sets, TripleElement.has_value, TripleElement.HEAD,
      TripleElement.RELATION, TripleElement.TAIL]

/-- Witness for C10 at target = TAIL. -/
theorem C10_miracle_unreachable_witness :
    ((2 : Int) = TripleElement.HEAD ∨ (2 : Int) = TripleElement.RELATION ∨
      (2 : Int) = TripleElement.TAIL) ∧
    expand_triple_to_sets (7, 8, 9) 4 2 ≠ .error .miracle :=
  C10_miracle_unreachable (7, 8, 9) 4 2 (by decide)

/-! ### Loading failures in TripleSource.__init__ (lines 28-62) -/

/-- The spec's taxonomy for loader failures: `ParseError` is the
`assert num_failed == 0` firing after a `read_triple_indexes` call (lines 33,
38, 43); `IntegrityError` is Python `max` raising on an empty parsed set
while the vocabulary sizes are computed (lines 47-62). -/
inductive LoadError
  | parseError
  | integrityError
deriving Repr, DecidableEq

/-- `TripleSource.__init__` as a loader.  The external parser
`kgekit.io.read_triple_indexes` (out of scope per the spec) returns a
`(triples, failed_line_count)` pair per file; these pairs are the inputs.
The constructor asserts each failure count is zero, then computes the
vocabulary sizes via `TripleSource.init`. -/
def TripleSource.load (train valid test : List TripleIndex × Nat) :
    Except LoadError TripleSource :=
  if train.2 ≠ 0 then .error .parseError
  else if valid.2 ≠ 0 then .error .parseError
  else if test.2 ≠ 0 then .error .parseError
  else
    match TripleSource.init train.1 valid.1 test.1 with
    | none => .error .integrityError
    | some s => .ok s

theorem pyMaxBy_nil (f : TripleIndex → Int) : pyMaxBy f [] = none := rfl

theorem TripleSource.init_eq_none_of_empty (train valid test : List TripleIndex)
    (h : train = [] ∨ valid = [] ∨ test = []) :
    TripleSource.init train valid test = none := by
  rcases h with rfl | rfl | rfl
  · rfl
  · unfold TripleSource.init
    cases hm : pyMaxBy (fun x => x.head) train with
    | none => rfl
    | some v => rfl
  · unfold TripleSource.init
    cases hm1 : pyMaxBy (fun x => x.head) train with
    | none => rfl
    | some v1 =>
      cases hm2 : pyMaxBy (fun x => x.head) valid with
      | none => rfl
      | some v2 => rfl

/-- C5: loading fails with `ParseError` whenever any of the three parsed
files reports a nonzero failed-line count (the loader tolerates zero
failures and fails loudly rather than dropping lines), and fails with
`IntegrityError` when all parses succeed but some file yields zero rows. -/
theorem C5_loader_errors (train valid test : List TripleIndex × Nat) :
    (train.2 ≠ 0 ∨ valid.2 ≠ 0 ∨ test.2 ≠ 0 →
      TripleSource.load train valid test = .error .parseError) ∧
    (train.2 = 0 → valid.2 = 0 → test.2 = 0 →
      train.1 = [] ∨ valid.1 = [] ∨ test.1 = [] →
      TripleSource.load train valid test = .error .integrityError) := by
  constructor
  · intro h
    unfold TripleSource.load
    by_cases h1 : train.2 = 0
    · rw [if_neg (by omega)]
      by_cases h2 : valid.2 = 0
      · rw [if_neg (by omega), if_pos (by omega)]
      · rw [if_pos h2]
    · rw [if_pos h1]
  · intro h1 h2 h3 hempty
    unfold TripleSource.load
    rw [if_neg (by omega), if_neg (by omega), if_neg (by omega),
      TripleSource.init_eq_none_of_empty _ _ _ hempty]

/-- Witness for C5: a train file with one failed line gives `ParseError`;
an empty valid file (zero rows) with clean parses gives `IntegrityError`. -/
theorem C5_loader_errors_witness :
    TripleSource.load (exTrain, 1) (exValid, 0) (exTest, 0) = .error .parseError ∧
    TripleSource.load (exTrain, 0) ([], 0) (exTest, 0) = .error .integrityError :=
  ⟨(C5_loader_errors (exTrain, 1) (exValid, 0) (exTest, 0)).1 (Or.inl (by decide)),
   (C5_loader_errors (exTrain, 0) ([], 0) (exTest, 0)).2 rfl rfl rfl
     (Or.inr (Or.inl rfl))⟩

/-! ### sieve_and_expand_triple (lines 282-320) -/

/-- How a call into `sieve_and_expand_triple` fails.  `nameErrorBatch` is the
`NameError` raised by the first statement of the body (line 286), which reads
the name `batch` although no such name is bound in the function, the module,
or builtins. -/
inductive QueryError
  | nameErrorBatch
deriving Repr, DecidableEq

/-- `sieve_and_expand_triple(triple_source, entities, relations, head,
relation, tail)`.  The body's first statement (line 286) is
`batch_size, num_samples, num_element = batch.shape` — a leftover copied from
`get_triples_from_batch` — and `batch` is unbound, so in Python the call
raises `NameError` before any query logic runs; none of the `?`-dispatch code
(lines 290-320) is reachable.  The success type records what the docstring
and the remaining code promise: the three expanded arrays, the queried-field
tag, and the `TripleIndex` with `-1` at the unknown position. -/
def sieve_and_expand_triple (triple_source : TripleSource)
    (entities relations : List (String × Int)) (head relation tail : String) :
    Except QueryError ((List Int × List Int × List Int) × String × TripleIndex) :=
  .error .nameErrorBatch

/-- C3 (code bug): every call of `sieve_and_expand_triple` raises `NameError`
on the unbound name `batch` at line 286, so no input — in particular none
with a `?` placeholder in exactly one position — ever receives the promised
expanded arrays, tag and `TripleIndex`, and the zero/multiple-`?` cases never
reach an `AmbiguousQueryError`-style check either. -/
theorem C3_sieve_name_error :
    sieve_and_expand_triple exSource [("a", 0), ("b", 1)] [("r", 0)] "a" "r" "?"
      = .error .nameErrorBatch ∧
    ∀ src ents rels h r t, ¬ ∃ res,
      sieve_and_expand_triple src ents rels h r t = .ok res := by
  exact ⟨rfl, fun _ _ _ _ _ _ h => by obtain ⟨res, hres⟩ := h; cases hres⟩

/-! ### create_dataloader (lines 227-279) -/

/-- Modelled from the spec: `kgexpr.data.constants.DatasetType` is code of
this repository not under `src/`; per the spec there are training,
validation and testing dataset types. -/
inductive DatasetType
  | TRAINING
  | VALIDATION
  | TESTING
deriving Repr, DecidableEq

/-- Modelled from the spec: the collation stages of §4.5/§4.6, named after
the members of `kgexpr.data.collators` referenced by `create_dataloader`
(that module is not under `src/`).  Stage semantics are opaque here: only
their identity and order matter for the pipeline-composition claim. -/
inductive CollateStage
  | list_stack_collate
  | CorruptionCollate
  | LCWANoThrowCollate
  | label_collate
  | none_label_collate
  | BreakdownCollator
  | TripleTileCollate
  | label_prediction_collate
deriving Repr, DecidableEq

/-- The stage list built by `create_dataloader` (lines 238-268): for training
it appends stack, corruption, negative expansion, then either the label or
the no-op label collator depending on `collates_label`, then the breakdown
finalizer; for validation/testing it is the single tile collator, plus the
label-prediction collator when `collates_label`. -/
def create_dataloader_collates (dataset_type : DatasetType) (collates_label : Bool) :
    List CollateStage :=
  if dataset_type = DatasetType.TRAINING then
    [CollateStage.list_stack_collate, CollateStage.CorruptionCollate,
      CollateStage.LCWANoThrowCollate] ++
    (if collates_label then [CollateStage.label_collate]
      else [CollateStage.none_label_collate]) ++
    [CollateStage.BreakdownCollator]
  else
    [CollateStage.TripleTileCollate] ++
    (if collates_label then [CollateStage.label_prediction_collate] else [])

/-- C7: the training dataloader composes exactly stack, corruption tagging,
negative expansion, label attachment (real label stage or no-op selected by
`collates_label`), then finalize; for validation/testing these are replaced
by the single TripleTile stage, optionally followed by label prediction. -/
theorem C7_collate_order :
    ∀ cl : Bool,
      create_dataloader_collates DatasetType.TRAINING cl =
        [CollateStage.list_stack_collate, CollateStage.CorruptionCollate,
          CollateStage.LCWANoThrowCollate,
          if cl then CollateStage.label_collate else CollateStage.none_label_collate,
          CollateStage.BreakdownCollator] ∧
      create_dataloader_collates DatasetType.VALIDATION cl =
        [CollateStage.TripleTileCollate] ++
          (if cl then [CollateStage.label_prediction_collate] else []) ∧
      create_dataloader_collates DatasetType.TESTING cl =
        [CollateStage.TripleTileCollate] ++
          (if cl then [CollateStage.label_prediction_collate] else []) := by
  intro cl
  cases cl <;> exact ⟨rfl, rfl, rfl⟩

/-- `_SAFE_MINIMAL_BATCH_SIZE` (line 188). -/
def _SAFE_MINIMAL_BATCH_SIZE : Int := 1

/-- The batch size chosen by `create_dataloader` (lines 260 and 262-264).
For the non-training path the code computes
`max(_SAFE_MINIMAL_BATCH_SIZE, int(config.batch_size * config.evaluation_load_factor))`;
the float product truncated by `int(...)` is passed in here as the already
computed integer `scaled_eval` (it can be any integer, covering every
rounding outcome), which is the only way it is used. -/
def create_dataloader_batch_size (dataset_type : DatasetType)
    (batch_size scaled_eval : Int) : Int :=
  if dataset_type = DatasetType.TRAINING then batch_size
  else max _SAFE_MINIMAL_BATCH_SIZE scaled_eval

/-- C9: the validation/testing dataloader batch size equals
`max(1, int(batch_size * evaluation_load_factor))` and is therefore at least
1, whatever integer the truncated product is. -/
theorem C9_eval_batch_size_positive (dataset_type : DatasetType)
    (batch_size scaled_eval : Int)
    (h : dataset_type = DatasetType.VALIDATION ∨ dataset_type = DatasetType.TESTING) :
    create_dataloader_batch_size dataset_type batch_size scaled_eval
        = max 1 scaled_eval ∧
    1 ≤ create_dataloader_batch_size dataset_type batch_size scaled_eval := by
  have hne : ¬ dataset_type = DatasetType.TRAINING := by
    rcases h with rfl | rfl <;> simp
  unfold create_dataloader_batch_size _SAFE_MINIMAL_BATCH_SIZE
  rw [if_neg hne]
  exact ⟨rfl, le_max_left 1 scaled_eval⟩

/-- Witness for C9: a tiny evaluation load factor truncating to 0 still
gives batch size 1. -/
theorem C9_eval_batch_size_positive_witness :
    create_dataloader_batch_size DatasetType.VALIDATION 100 0 = max 1 0 ∧
    1 ≤ create_dataloader_batch_size DatasetType.VALIDATION 100 0 :=
  C9_eval_batch_size_positive DatasetType.VALIDATION 100 0 (Or.inl rfl)

/-! ### get_triples_from_batch (lines 122-130) -/

/-- A numpy array as returned by `get_triples_from_batch`: either 1-d of
shape `(batch_size,)` or 2-d of shape `(batch_size, num_samples)`. -/
inductive NpArr
  | one (xs : List Int)
  | two (xss : List (List Int))
deriving Repr, DecidableEq

/-- Row-major regrouping of a flat list into rows of `n`, as numpy reshape
produces for a 2-d target shape. -/
def chunksOf {α : Type} : Nat → List α → List (List α)
  | _, [] => []
  | 0, _ :: _ => []
  | n + 1, x :: xs =>
    ((x :: xs).take (n + 1)) :: chunksOf (n + 1) ((x :: xs).drop (n + 1))
termination_by n l => l.length
decreasing_by
  simp only [List.length_drop, List.length_cons]
  omega

theorem chunksOf_nil {α : Type} (n : Nat) : chunksOf n ([] : List α) = [] := by
  cases n <;> simp [chunksOf]

theorem chunksOf_eq {α : Type} (n : Nat) (l : List α) (hn : n ≠ 0) (hl : l ≠ []) :
    chunksOf n l = l.take n :: chunksOf n (l.drop n) := by
  cases n with
  | zero => omega
  | succ m =>
    cases l with
    | nil => exact absurd rfl hl
    | cons x xs => simp [chunksOf]

/-- Piece `k` of `np.split(batch, num_element, axis=2)`: each length-`E`
innermost cell is cut down to the singleton holding its `k`-th entry. -/
def np_split_axis2 (batch : List (List (List Int))) (k : Nat) :
    List (List (List Int)) :=
  batch.map (fun row => row.map (fun cell => [cell.getD k 0]))

/-- `e.reshape(n)`: row-major flattening, defined only when the total size
matches (numpy raises `ValueError` otherwise). -/
def np_reshape1 (a : List (List (List Int))) (n : Nat) : Option (List Int) :=
  if a.flatten.flatten.length = n then some a.flatten.flatten else none

/-- `e.reshape(m, n)`: row-major flattening regrouped into rows of `n`,
defined only when the total size matches. -/
def np_reshape2 (a : List (List (List Int))) (m n : Nat) :
    Option (List (List Int)) :=
  if a.flatten.flatten.length = m * n then some (chunksOf n a.flatten.flatten)
  else none

/-- `get_triples_from_batch(batch)` for a batch of shape
`(batch_size, num_samples, num_element)`: splits along axis 2 into
`num_element` pieces and reshapes each to `(batch_size,)` when
`num_samples <= 1`, else to `(batch_size, num_samples)`.  The shape tuple is
read off the nested lists; `np.split` with 0 sections raises, hence `none`
for `num_element = 0`. -/
def get_triples_from_batch (batch : List (List (List Int))) :
    Option (List NpArr) :=
  let batch_size := batch.length
  let num_samples := (batch.headD []).length
  let num_element := ((batch.headD []).headD []).length
  if num_element = 0 then none
  else
    let elements := (List.range num_element).map (np_split_axis2 batch)
    if num_samples ≤ 1 then
      (elements.mapM (fun e => np_reshape1 e batch_size)).map (List.map NpArr.one)
    else
      (elements.mapM (fun e => np_reshape2 e batch_size num_samples)).map
        (List.map NpArr.two)

/-- A nested-list batch has rectangular shape `(B, S, E)`. -/
def HasShape (batch : List (List (List Int))) (B S E : Nat) : Prop :=
  batch.length = B ∧ ∀ row ∈ batch, row.length = S ∧ ∀ cell ∈ row, cell.length = E

instance (batch : List (List (List Int))) (B S E : Nat) :
    Decidable (HasShape batch B S E) := by
  unfold HasShape
  infer_instance

theorem mapM_option_eq_map {α β : Type} (f : α → Option β) (g : α → β)
    (l : List α) (h : ∀ x ∈ l, f x = some (g x)) : l.mapM f = some (l.map g) := by
  induction l with
  | nil => rfl
  | cons x xs ih =>
    rw [List.mapM_cons, h x (List.mem_cons_self x xs),
      ih (fun y hy => h y (List.mem_cons_of_mem x hy))]
    rfl

theorem chunksOf_flatten {α : Type} (n : Nat) (hn : 0 < n) :
    ∀ xss : List (List α), (∀ r ∈ xss, r.length = n) →
      chunksOf n xss.flatten = xss := by
  intro xss
  induction xss with
  | nil =>
    intro _
    rw [List.flatten_nil, chunksOf_nil]
  | cons r rs ih =>
    intro h
    have hr : r.length = n := h r (List.mem_cons_self r rs)
    have hne : r ++ rs.flatten ≠ [] := by
      intro hcontra
      have hr0 : r = [] := (List.append_eq_nil.mp hcontra).1
      rw [hr0] at hr
      simp at hr
      omega
    rw [List.flatten_cons, chunksOf_eq n _ (by omega) hne,
      List.take_left' hr, List.drop_left' hr,
      ih (fun x hx => h x (List.mem_cons_of_mem r hx))]

theorem flatten_length_const {α : Type} (S : Nat) :
    ∀ xss : List (List α), (∀ r ∈ xss, r.length = S) →
      xss.flatten.length = xss.length * S := by
  intro xss
  induction xss with
  | nil =>
    intro _
    simp
  | cons r rs ih =>
    intro h
    rw [List.flatten_cons, List.length_append, h r (List.mem_cons_self r rs),
      ih (fun x hx => h x (List.mem_cons_of_mem r hx)), List.length_cons,
      Nat.succ_mul]
    omega

theorem flatten_flatten_map_singleton {α β : Type} (g : α → β)
    (batch : List (List α)) :
    ((batch.map (fun row => row.map (fun x => [g x]))).flatten).flatten
      = (batch.map (fun row => row.map g)).flatten := by
  induction batch with
  | nil => rfl
  | cons row rows ih =>
    simp only [List.map_cons, List.flatten_cons, List.flatten_append, ih]
    congr 1
    induction row with
    | nil => rfl
    | cons c cs ih2 => simp [ih2]

/-- C8: for every rectangular batch of shape `(B, S, E)` (all positive),
`get_triples_from_batch` returns the `E` pieces of the split along the last
axis, each reshaped to shape `(B,)` when `S <= 1` and `(B, S)` otherwise. -/
theorem C8_get_triples_from_batch (batch : List (List (List Int))) (B S E : Nat)
    (hB : 0 < B) (hS : 0 < S) (hE : 0 < E) (hshape : HasShape batch B S E) :
    ∃ res, get_triples_from_batch batch = some res ∧ res.length = E ∧
      (S = 1 →
        res = (List.range E).map (fun k =>
          NpArr.one ((batch.map
            (fun row => row.map (fun cell => cell.getD k 0))).flatten)) ∧
        ∀ a ∈ res, ∃ xs, a = NpArr.one xs ∧ xs.length = B) ∧
      (1 < S →
        res = (List.range E).map (fun k =>
          NpArr.two (batch.map (fun row => row.map (fun cell => cell.getD k 0)))) ∧
        ∀ a ∈ res, ∃ xss, a = NpArr.two xss ∧ xss.length = B ∧
          ∀ r ∈ xss, r.length = S) := by
  obtain ⟨hlen, hrows⟩ := hshape
  cases batch with
  | nil =>
    simp only [List.length_nil] at hlen
    omega
  | cons b bs =>
  obtain ⟨hbS, hbcells⟩ := hrows b (List.mem_cons_self b bs)
  cases b with
  | nil =>
    simp only [List.length_nil] at hbS
    omega
  | cons c cs =>
  have hcE : c.length = E := hbcells c (List.mem_cons_self c cs)
  have hx_len : ∀ k : Nat,
      (((c :: cs) :: bs).map
        (fun row => row.map (fun cell => cell.getD k 0))).length = B := by
    intro k
    simpa using hlen
  have hx_rows : ∀ k : Nat, ∀ r ∈ ((c :: cs) :: bs).map
      (fun row => row.map (fun cell => cell.getD k 0)), r.length = S := by
    intro k r hr
    obtain ⟨row, hrow, rfl⟩ := List.mem_map.mp hr
    simpa using (hrows row hrow).1
  have hx_flatlen : ∀ k : Nat,
      (((c :: cs) :: bs).map
        (fun row => row.map (fun cell => cell.getD k 0))).flatten.length = B * S := by
    intro k
    rw [flatten_length_const S _ (hx_rows k), hx_len k]
  have hkey : ∀ k : Nat, (np_split_axis2 ((c :: cs) :: bs) k).flatten.flatten
      = (((c :: cs) :: bs).map
          (fun row => row.map (fun cell => cell.getD k 0))).flatten := by
    intro k
    exact flatten_flatten_map_singleton (fun cell => cell.getD k 0) ((c :: cs) :: bs)
  by_cases hS1 : S = 1
  · subst hS1
    have hres : ∀ e ∈ (List.range E).map (np_split_axis2 ((c :: cs) :: bs)),
        np_reshape1 e B = some e.flatten.flatten := by
      intro e he
      obtain ⟨k, hk, rfl⟩ := List.mem_map.mp he
      have hcond : (np_split_axis2 ((c :: cs) :: bs) k).flatten.flatten.length = B := by
        rw [hkey k, hx_flatlen k, Nat.mul_one]
      unfold np_reshape1
      rw [if_pos hcond]
    have hval : get_triples_from_batch ((c :: cs) :: bs)
        = some ((List.range E).map (fun k =>
            NpArr.one ((((c :: cs) :: bs).map
              (fun row => row.map (fun cell => cell.getD k 0))).flatten))) := by
      simp only [get_triples_from_batch, List.headD_cons, hcE, hbS, hlen]
      rw [if_neg (by omega : ¬ E = 0), if_pos (le_refl 1)]
      rw [mapM_option_eq_map (fun e => np_reshape1 e B)
        (fun e => e.flatten.flatten) _ hres]
      simp only [Option.map_some', List.map_map]
      refine congrArg some (List.map_congr_left ?_)
      intro k hk
      simp only [Function.comp_apply]
      exact congrArg NpArr.one (hkey k)
    refine ⟨_, hval, by simp, fun _ => ⟨rfl, ?_⟩, fun hcontra => by omega⟩
    intro a ha
    obtain ⟨k, hk, rfl⟩ := List.mem_map.mp ha
    refine ⟨_, rfl, ?_⟩
    simpa using hx_flatlen k
  · have hS2 : 1 < S := by omega
    have hres : ∀ e ∈ (List.range E).map (np_split_axis2 ((c :: cs) :: bs)),
        np_reshape2 e B S = some (chunksOf S e.flatten.flatten) := by
      intro e he
      obtain ⟨k, hk, rfl⟩ := List.mem_map.mp he
      have hcond : (np_split_axis2 ((c :: cs) :: bs) k).flatten.flatten.length
          = B * S := by
        rw [hkey k, hx_flatlen k]
      unfold np_reshape2
      rw [if_pos hcond]
    have hval : get_triples_from_batch ((c :: cs) :: bs)
        = some ((List.range E).map (fun k =>
            NpArr.two (((c :: cs) :: bs).map
              (fun row => row.map (fun cell => cell.getD k 0))))) := by
      simp only [get_triples_from_batch, List.headD_cons, hcE, hbS, hlen]
      rw [if_neg (by omega : ¬ E = 0), if_neg (by omega : ¬ S ≤ 1)]
      rw [mapM_option_eq_map (fun e => np_reshape2 e B S)
        (fun e => chunksOf S e.flatten.flatten) _ hres]
      simp only [Option.map_some', List.map_map]
      refine congrArg some (List.map_congr_left ?_)
      intro k hk
      simp only [Function.comp_apply]
      rw [hkey k, chunksOf_flatten S (by omega) _ (hx_rows k)]
    refine ⟨_, hval, by simp, fun hcontra => by omega, fun _ => ⟨rfl, ?_⟩⟩
    intro a ha
    obtain ⟨k, hk, rfl⟩ := List.mem_map.mp ha
    exact ⟨_, rfl, hx_len k, hx_rows k⟩

/-- Witness for C8 at the batch `[[[1,2,3],[4,5,6]]]` of shape `(1, 2, 3)`. -/
theorem C8_get_triples_from_batch_witness :
    ∃ res, get_triples_from_batch [[[1, 2, 3], [4, 5, 6]]] = some res ∧
      res.length = 3 ∧
      ((2 : Nat) = 1 →
        res = (List.range 3).map (fun k =>
          NpArr.one (([[[1, 2, 3], [4, 5, 6]]].map
            (fun row => row.map (fun cell => cell.getD k 0))).flatten)) ∧
        ∀ a ∈ res, ∃ xs, a = NpArr.one xs ∧ xs.length = 1) ∧
      ((1 : Nat) < 2 →
        res = (List.range 3).map (fun k =>
          NpArr.two ([[[1, 2, 3], [4, 5, 6]]].map
            (fun row => row.map (fun cell => cell.getD k 0)))) ∧
        ∀ a ∈ res, ∃ xss, a = NpArr.two xss ∧ xss.length = 1 ∧
          ∀ r ∈ xss, r.length = 2) :=
  C8_get_triples_from_batch [[[1, 2, 3], [4, 5, 6]]] 1 2 3
    (by decide) (by decide) (by decide) (by decide)

end Kgexpr
